import Mathlib

set_option autoImplicit false

/-!
Verification development for the video-spell-checker analysis pipeline
(`src/app.py`).  The Python source is shallowly embedded: dictionaries with a
fixed shape become structures, numeric values (Python ints and floats) become
`Int`/`Rat`, fallible calls to external services become `Except`/`Option`
parameters, and the two external libraries the code leans on — `difflib`
(`SequenceMatcher.ratio`) and the `json` module (`json.loads`) — are embedded
by transcribing their algorithms.
-/

namespace VSC

/-! ## Python built-in helpers -/

/-- Models Python `str.lower()`.  Exact on ASCII text (the only text the
analysis pipeline compares); `Char.toLower` only folds ASCII letters. -/
def pyLower (s : String) : String := String.mk (s.toList.map Char.toLower)

/-- Character-list version: does the list start with the given pattern? -/
def startsWithL : List Char → List Char → Bool
  | _, [] => true
  | [], _ :: _ => false
  | c :: cs, p :: ps => c == p && startsWithL cs ps

/-- Does the pattern occur as a contiguous run anywhere in the list? -/
def containsSub : List Char → List Char → Bool
  | [], p => p.isEmpty
  | c :: cs, p => startsWithL (c :: cs) p || containsSub cs p

/-- Models the Python substring test `pat in s`. -/
def pyIn (pat s : String) : Bool := containsSub s.toList pat.toList

/-- Models Python `round()` on an exact rational: round-half-to-even. -/
def pyRound (q : ℚ) : ℤ :=
  let f : ℤ := Int.floor q
  let r : ℚ := q - (f : ℚ)
  if r < 1/2 then f
  else if 1/2 < r then f + 1
  else if f % 2 = 0 then f else f + 1

def pyDedupAux : List String → List String → List String
  | _, [] => []
  | seen, x :: xs => if x ∈ seen then pyDedupAux seen xs else x :: pyDedupAux (x :: seen) xs

/-- Models `list(dict.fromkeys(xs))`: deduplicate keeping the first
occurrence of each element, preserving order. -/
def pyDedup (xs : List String) : List String := pyDedupAux [] xs

/-- Zero-pad to two digits, as `f"{s:02d}"` does for values in `[0, 59]`. -/
def pad2 (n : ℤ) : String := if n < 10 then "0" ++ toString n else toString n

/-- Models `f"{int(start // 60)}:{int(start % 60):02d}"` from
`compare_captions` (`src/app.py:223`), for an exact rational `start`. -/
def ts_of_start (start : ℚ) : String :=
  let m : ℤ := Int.floor (start / 60)
  let s : ℤ := Int.floor (start - 60 * (m : ℚ))
  toString m ++ ":" ++ pad2 s

/-- Models `format_timestamp` (`src/app.py:256`): `divmod(seconds, 60)`
(floor semantics) then `f"{m}:{s:02d}"`. -/
def format_timestamp (seconds : ℤ) : String :=
  let m := Int.fdiv seconds 60
  let s := Int.fmod seconds 60
  toString m ++ ":" ++ pad2 s

/-! ## Data model

`compare_captions` reads exactly two fields of each frame dictionary:
`timestamp_sec` (a number, compared against fractional segment times) and
`text` (a string or `None`). -/

structure FrameReading where
  timestamp_sec : ℚ
  text : Option String
deriving Repr, DecidableEq

structure SpokenSegment where
  start : ℚ
  end_ : ℚ
  text : String
deriving Repr, DecidableEq

structure Row where
  timestamp : String
  spoken : String
  on_screen : String
  status : String
  score : Option ℤ
deriving Repr, DecidableEq

/-! ## difflib.SequenceMatcher

Transcription of CPython `difflib.SequenceMatcher` with `isjunk=None` and
`autojunk=True`, specialised to character sequences, computing exactly the
quantities `ratio()` needs.  Python float division is embedded as exact
rational division. -/

namespace SeqMatch

/-- Indices at which character `c` occurs in `b`, in increasing order
(the `b2j` table before autojunk pruning). -/
def idxList (b : List Char) (c : Char) : List ℕ :=
  (b.enum.filter (fun p => p.2 == c)).map Prod.fst

/-- The autojunk rule: when `len(b) >= 200`, characters occurring more than
`len(b) // 100 + 1` times are "popular" and dropped from `b2j`. -/
def autojunkPopular (b : List Char) (c : Char) : Bool :=
  decide (200 ≤ b.length) && decide (b.length / 100 + 1 < (idxList b c).length)

/-- The `b2j` mapping used by `find_longest_match`. -/
def b2j (b : List Char) (c : Char) : List ℕ :=
  if autojunkPopular b c then [] else idxList b c

/-- The junk set `bjunk` is empty because the matcher is constructed with
`isjunk=None`. -/
def bjunk (_ : Char) : Bool := false

structure Best where
  besti : ℕ
  bestj : ℕ
  bestsize : ℕ
deriving Repr, DecidableEq

/-- Inner loop of `find_longest_match` over the candidate `j` positions of
row `i`; `j2len` is the previous row's run-length table (default 0),
`nj` the new row's table being built. -/
def flmRow (j2len : ℕ → ℕ) (blo bhi i : ℕ) : List ℕ → (ℕ → ℕ) → Best → ((ℕ → ℕ) × Best)
  | [], nj, best => (nj, best)
  | j :: js, nj, best =>
    if j < blo then flmRow j2len blo bhi i js nj best
    else if bhi ≤ j then (nj, best)
    else
      let k := (if j = 0 then 0 else j2len (j - 1)) + 1
      let nj2 : ℕ → ℕ := fun x => if x = j then k else nj x
      if best.bestsize < k then
        flmRow j2len blo bhi i js nj2 ⟨i + 1 - k, j + 1 - k, k⟩
      else
        flmRow j2len blo bhi i js nj2 best

/-- Outer loop of `find_longest_match` over the rows `i` in `[alo, ahi)`. -/
def flmRows (a : List Char) (bj : Char → List ℕ) (blo bhi : ℕ) :
    List ℕ → (ℕ → ℕ) → Best → Best
  | [], _, best => best
  | i :: is, j2len, best =>
    let p := flmRow j2len blo bhi i (bj (a.getD i ' ')) (fun _ => 0) best
    flmRows a bj blo bhi is p.1 p.2

/-- Leftward extension loop of `find_longest_match`; `wantJunk` selects
between the non-junk pass and the junk pass of the source.  Fuel-bounded
(`besti` strictly decreases each step, so `besti` fuel suffices). -/
def extendL (a b : List Char) (wantJunk : Bool) (alo blo : ℕ) : ℕ → Best → Best
  | 0, best => best
  | fuel + 1, best =>
    if alo < best.besti ∧ blo < best.bestj
        ∧ bjunk (b.getD (best.bestj - 1) ' ') = wantJunk
        ∧ a.getD (best.besti - 1) ' ' = b.getD (best.bestj - 1) ' ' then
      extendL a b wantJunk alo blo fuel ⟨best.besti - 1, best.bestj - 1, best.bestsize + 1⟩
    else best

/-- Rightward extension loop of `find_longest_match`. -/
def extendR (a b : List Char) (wantJunk : Bool) (ahi bhi : ℕ) : ℕ → Best → Best
  | 0, best => best
  | fuel + 1, best =>
    if best.besti + best.bestsize < ahi ∧ best.bestj + best.bestsize < bhi
        ∧ bjunk (b.getD (best.bestj + best.bestsize) ' ') = wantJunk
        ∧ a.getD (best.besti + best.bestsize) ' ' = b.getD (best.bestj + best.bestsize) ' ' then
      extendR a b wantJunk ahi bhi fuel ⟨best.besti, best.bestj, best.bestsize + 1⟩
    else best

/-- CPython `SequenceMatcher.find_longest_match(alo, ahi, blo, bhi)`:
dynamic-programming sweep followed by the four extension loops. -/
def find_longest_match (a b : List Char) (bj : Char → List ℕ) (alo ahi blo bhi : ℕ) : Best :=
  let best := flmRows a bj blo bhi (List.range' alo (ahi - alo)) (fun _ => 0) ⟨alo, blo, 0⟩
  let best := extendL a b false alo blo best.besti best
  let best := extendR a b false ahi bhi ahi best
  let best := extendL a b true alo blo best.besti best
  let best := extendR a b true ahi bhi ahi best
  best

/-- Total size of all matching blocks collected by `get_matching_blocks`
(the recursive split around each longest match; the final merge step and
the zero-length sentinel do not change the sum).  Fuel-bounded: each
recursive call strictly shrinks the `a`-interval. -/
def matchSum (a b : List Char) (bj : Char → List ℕ) : ℕ → ℕ → ℕ → ℕ → ℕ → ℕ
  | 0, _, _, _, _ => 0
  | fuel + 1, alo, ahi, blo, bhi =>
    let m := find_longest_match a b bj alo ahi blo bhi
    if m.bestsize = 0 then 0
    else
      m.bestsize
        + (if alo < m.besti ∧ blo < m.bestj then
            matchSum a b bj fuel alo m.besti blo m.bestj else 0)
        + (if m.besti + m.bestsize < ahi ∧ m.bestj + m.bestsize < bhi then
            matchSum a b bj fuel (m.besti + m.bestsize) ahi (m.bestj + m.bestsize) bhi else 0)

/-- Models `SequenceMatcher(None, sa, sb).ratio()`: `2.0 * M / T` where `M`
is the total matched size and `T` the total length, and `1.0` when both
sequences are empty (`_calculate_ratio`). -/
def ratioQ (sa sb : String) : ℚ :=
  let a := sa.toList
  let b := sb.toList
  let msum := matchSum a b (b2j b) (a.length + 1) 0 a.length 0 b.length
  if a.length + b.length = 0 then 1
  else (2 * msum : ℚ) / ((a.length : ℚ) + (b.length : ℚ))

end SeqMatch

/-! ## compare_captions (src/app.py:201-253) -/

/-- The per-frame text filter inside the window loop of `compare_captions`:
`text = frame.get("text") or ""` followed by
`if text and text.lower() not in ("null", "none")`. -/
def keptText (f : FrameReading) : Option String :=
  let text := f.text.getD ""
  if text ≠ "" ∧ pyLower text ≠ "null" ∧ pyLower text ≠ "none" then some text else none

/-- The correlation-window test `(start - 2) <= ft <= (end + 2)`. -/
def inWindow (start end_ : ℚ) (f : FrameReading) : Bool :=
  decide (start - 2 ≤ f.timestamp_sec ∧ f.timestamp_sec ≤ end_ + 2)

/-- The `on_screen_parts` list gathered for one segment. -/
def onScreenParts (frames : List FrameReading) (start end_ : ℚ) : List String :=
  frames.filterMap (fun f => if inWindow start end_ f then keptText f else none)

/-- The `on_screen` string: parts deduplicated first-seen and joined. -/
def onScreenOf (frames : List FrameReading) (start end_ : ℚ) : String :=
  String.intercalate " | " (pyDedup (onScreenParts frames start end_))

/-- The row built for a segment in the `language == "english"` branch. -/
def englishRow (frames : List FrameReading) (seg : SpokenSegment) : Row :=
  let on_screen := onScreenOf frames seg.start seg.end_
  let ratio : ℚ :=
    if on_screen ≠ "" then SeqMatch.ratioQ (pyLower seg.text) (pyLower on_screen) else 0
  let status :=
    if on_screen ≠ "" then
      if (11 : ℚ)/20 ≤ ratio then "match"
      else if (1 : ℚ)/4 ≤ ratio then "partial"
      else "mismatch"
    else "no_caption"
  { timestamp := ts_of_start seg.start
    spoken := seg.text
    on_screen := if on_screen = "" then "—" else on_screen
    status := status
    score := some (pyRound (ratio * 100)) }

/-- The row built for a segment in the non-English (`else`) branch. -/
def reviewRow (frames : List FrameReading) (seg : SpokenSegment) : Row :=
  let on_screen := onScreenOf frames seg.start seg.end_
  { timestamp := ts_of_start seg.start
    spoken := seg.text
    on_screen := if on_screen = "" then "—" else on_screen
    status := "review"
    score := none }

/-- Models `compare_captions`: one row per audio segment with non-empty
spoken text (`if not spoken: continue`). -/
def compare_captions (frames : List FrameReading) (segs : List SpokenSegment)
    (language : String) : List Row :=
  segs.filterMap (fun seg =>
    if seg.text = "" then none
    else if language = "english" then some (englishRow frames seg)
    else some (reviewRow frames seg))

/-! ## JSON values and json.loads

The model reply is parsed with `json.loads`; its result is dynamically
typed, embedded here as `JValue`.  The parser below transcribes the JSON
grammar as CPython `json.loads` accepts it by default (strict strings, the
`NaN`/`Infinity`/`-Infinity` constants, last-wins duplicate keys). -/

inductive JValue where
  | null
  | bool (b : Bool)
  | num (q : ℚ)
  | nan
  | inf (neg : Bool)
  | str (s : String)
  | arr (items : List JValue)
  | obj (fields : List (String × JValue))
deriving Inhabited

/-- JSON whitespace, as in CPython `json` (`' \t\n\r'`). -/
def jWs (c : Char) : Bool := c = ' ' || c = '\t' || c = '\n' || c = '\r'

def skipWs : List Char → List Char
  | c :: cs => if jWs c then skipWs cs else c :: cs
  | [] => []

def hexVal? (c : Char) : Option ℕ :=
  if '0' ≤ c ∧ c ≤ '9' then some (c.toNat - '0'.toNat)
  else if 'a' ≤ c ∧ c ≤ 'f' then some (c.toNat - 'a'.toNat + 10)
  else if 'A' ≤ c ∧ c ≤ 'F' then some (c.toNat - 'A'.toNat + 10)
  else none

def hex4? : List Char → Option (ℕ × List Char)
  | a :: b :: c :: d :: rest =>
    match hexVal? a, hexVal? b, hexVal? c, hexVal? d with
    | some x, some y, some z, some w => some (((x * 16 + y) * 16 + z) * 16 + w, rest)
    | _, _, _, _ => none
  | _ => none

/-- Total code-point constructor; lone surrogates (which Python keeps in its
strings but Lean cannot represent) collapse to `'\x00'`. -/
def mkCharSafe (n : ℕ) : Char := Char.ofNat n

/-- JSON string body parser (after the opening quote), including escapes,
`\uXXXX` with surrogate pairing, and the strict-mode rejection of raw
control characters. -/
def parseJStr : ℕ → List Char → List Char → Option (String × List Char)
  | 0, _, _ => none
  | fuel + 1, acc, cs =>
    match cs with
    | [] => none
    | c :: rest =>
      if c = '"' then some (String.mk acc.reverse, rest)
      else if c = '\\' then
        match rest with
        | [] => none
        | e :: rest2 =>
          if e = '"' then parseJStr fuel ('"' :: acc) rest2
          else if e = '\\' then parseJStr fuel ('\\' :: acc) rest2
          else if e = '/' then parseJStr fuel ('/' :: acc) rest2
          else if e = 'b' then parseJStr fuel ('\x08' :: acc) rest2
          else if e = 'f' then parseJStr fuel ('\x0c' :: acc) rest2
          else if e = 'n' then parseJStr fuel ('\n' :: acc) rest2
          else if e = 'r' then parseJStr fuel ('\r' :: acc) rest2
          else if e = 't' then parseJStr fuel ('\t' :: acc) rest2
          else if e = 'u' then
            match hex4? rest2 with
            | none => none
            | some (n, rest3) =>
              if 0xD800 ≤ n ∧ n ≤ 0xDBFF then
                match rest3 with
                | '\\' :: 'u' :: rest4 =>
                  match hex4? rest4 with
                  | some (n2, rest5) =>
                    if 0xDC00 ≤ n2 ∧ n2 ≤ 0xDFFF then
                      parseJStr fuel
                        (mkCharSafe (0x10000 + (n - 0xD800) * 1024 + (n2 - 0xDC00)) :: acc) rest5
                    else parseJStr fuel (mkCharSafe n :: acc) rest3
                  | none => parseJStr fuel (mkCharSafe n :: acc) rest3
                | _ => parseJStr fuel (mkCharSafe n :: acc) rest3
              else parseJStr fuel (mkCharSafe n :: acc) rest3
          else none
      else if c.toNat < 0x20 then none
      else parseJStr fuel (c :: acc) rest

def digitSpan : List Char → (List Char × List Char)
  | c :: cs =>
    if c.isDigit then
      let p := digitSpan cs
      (c :: p.1, p.2)
    else ([], c :: cs)
  | [] => ([], [])

def digitsVal (ds : List Char) : ℕ :=
  ds.foldl (fun acc c => acc * 10 + (c.toNat - '0'.toNat)) 0

/-- The optional fraction group `(\.\d+)?` of the JSON number regex, with
backtracking when the dot is not followed by a digit. -/
def parseFrac : List Char → (List Char × List Char)
  | '.' :: cs =>
    let p := digitSpan cs
    if p.1 = [] then ([], '.' :: cs) else p
  | cs => ([], cs)

/-- The optional exponent group `([eE][-+]?\d+)?`, with backtracking. -/
def parseExp : List Char → (Option ℤ × List Char)
  | e :: cs =>
    if e = 'e' ∨ e = 'E' then
      let sgn : ℤ × List Char :=
        match cs with
        | '+' :: r => (1, r)
        | '-' :: r => (-1, r)
        | _ => (1, cs)
      let p := digitSpan sgn.2
      if p.1 = [] then (none, e :: cs) else (some (sgn.1 * (digitsVal p.1 : ℤ)), p.2)
    else (none, e :: cs)
  | [] => (none, [])

/-- JSON number parser, following CPython's `NUMBER_RE`
(`(-?(?:0|[1-9]\d*))(\.\d+)?([eE][-+]?\d+)?`); the value is exact. -/
def parseNum : List Char → Option (ℚ × List Char)
  | cs =>
    let sp : Bool × List Char := match cs with | '-' :: r => (true, r) | _ => (false, cs)
    match digitSpan sp.2 with
    | ([], _) => none
    | (ip, r1) =>
      if 1 < ip.length ∧ ip.headD '0' = '0' then none
      else
        let fp := parseFrac r1
        let ep := parseExp fp.2
        let ipv : ℚ := (digitsVal ip : ℚ)
        let fv : ℚ := (digitsVal fp.1 : ℚ) / (10 : ℚ) ^ fp.1.length
        let mag : ℚ := (ipv + fv) * (10 : ℚ) ^ (ep.1.getD 0)
        some (if sp.1 then -mag else mag, ep.2)

mutual

/-- JSON value parser (fuel-bounded; `json_loads` supplies ample fuel). -/
def parseValue : ℕ → List Char → Option (JValue × List Char)
  | 0, _ => none
  | fuel + 1, cs =>
    match skipWs cs with
    | [] => none
    | c :: rest =>
      if c = '"' then (parseJStr (rest.length + 1) [] rest).map (fun p => (JValue.str p.1, p.2))
      else if c = '\x7b' then parseObj fuel rest [] true
      else if c = '[' then parseArr fuel rest [] true
      else if startsWithL (c :: rest) "null".toList then some (.null, (c :: rest).drop 4)
      else if startsWithL (c :: rest) "true".toList then some (.bool true, (c :: rest).drop 4)
      else if startsWithL (c :: rest) "false".toList then some (.bool false, (c :: rest).drop 5)
      else if startsWithL (c :: rest) "NaN".toList then some (.nan, (c :: rest).drop 3)
      else if startsWithL (c :: rest) "Infinity".toList then some (.inf false, (c :: rest).drop 8)
      else if startsWithL (c :: rest) "-Infinity".toList then some (.inf true, (c :: rest).drop 9)
      else (parseNum (c :: rest)).map (fun p => (JValue.num p.1, p.2))

/-- Object members after `{` (or after a comma when `first = false`). -/
def parseObj : ℕ → List Char → List (String × JValue) → Bool → Option (JValue × List Char)
  | 0, _, _, _ => none
  | fuel + 1, cs, acc, first =>
    match skipWs cs with
    | '\x7d' :: rest => if first then some (.obj [], rest) else none
    | '"' :: rest =>
      match parseJStr (rest.length + 1) [] rest with
      | none => none
      | some (key, r1) =>
        match skipWs r1 with
        | ':' :: r2 =>
          match parseValue fuel r2 with
          | none => none
          | some (v, r3) =>
            match skipWs r3 with
            | '\x7d' :: r4 => some (.obj ((key, v) :: acc).reverse, r4)
            | ',' :: r4 => parseObj fuel r4 ((key, v) :: acc) false
            | _ => none
        | _ => none
    | _ => none

/-- Array items after `[` (or after a comma when `first = false`). -/
def parseArr : ℕ → List Char → List JValue → Bool → Option (JValue × List Char)
  | 0, _, _, _ => none
  | fuel + 1, cs, acc, first =>
    match skipWs cs with
    | ']' :: rest => if first then some (.arr [], rest) else none
    | cs2 =>
      match parseValue fuel cs2 with
      | none => none
      | some (v, r1) =>
        match skipWs r1 with
        | ']' :: r2 => some (.arr (v :: acc).reverse, r2)
        | ',' :: r2 => parseArr fuel r2 (v :: acc) false
        | _ => none

end

/-- Models `json.loads`: parse one value, allow surrounding whitespace,
reject trailing data.  Returns `none` where Python raises. -/
def json_loads (s : String) : Option JValue :=
  match parseValue (2 * s.length + 2) s.toList with
  | some (v, rest) => if skipWs rest = [] then some v else none
  | none => none

/-- Models Python `dict.get(key)` on a parsed JSON object: with duplicate
keys the last binding wins, as in a Python dict built by assignment. -/
def jGet (v : JValue) (key : String) : Option JValue :=
  match v with
  | .obj fields => (fields.reverse.find? (fun p => p.1 == key)).map Prod.snd
  | _ => none

/-! ## Python truthiness and str() for JSON values -/

def pyTruthy : JValue → Bool
  | .null => false
  | .bool b => b
  | .num q => decide (q ≠ 0)
  | .nan => true
  | .inf _ => true
  | .str s => !s.isEmpty
  | .arr l => !l.isEmpty
  | .obj l => !l.isEmpty

def hexDigitCh (n : ℕ) : Char :=
  if n < 10 then Char.ofNat ('0'.toNat + n) else Char.ofNat ('a'.toNat + n - 10)

def hex2 (n : ℕ) : String := String.mk [hexDigitCh (n / 16 % 16), hexDigitCh (n % 16)]

def squote : Char := Char.ofNat 39

def pyReprStrEsc (quote c : Char) : String :=
  if c = '\\' then "\\\\"
  else if c = quote then String.mk ['\\', quote]
  else if c = '\n' then "\\n"
  else if c = '\r' then "\\r"
  else if c = '\t' then "\\t"
  else if c.toNat < 0x20 ∨ c.toNat = 0x7f then "\\x" ++ hex2 c.toNat
  else String.mk [c]

/-- Models Python `repr()` of a `str`: single quotes unless the string
contains a single quote and no double quote, with ASCII escapes.
(Non-printable non-ASCII categories are not special-cased; no echo marker
can occur in the difference.) -/
def pyReprStr (s : String) : String :=
  let quote := if s.toList.contains squote ∧ ¬ s.toList.contains '"' then '"' else squote
  String.mk [quote] ++ String.join (s.toList.map (pyReprStrEsc quote)) ++ String.mk [quote]

/-- Rendering of a JSON number under `str()`: exact for integers; a plain
fraction otherwise (Python float formatting is not reproduced digit for
digit — only digits, sign and a slash appear, so no echo marker phrase can
occur in either rendering). -/
def numRepr (q : ℚ) : String :=
  if q.den = 1 then toString q.num else toString q.num ++ "/" ++ toString q.den

mutual

/-- Models Python `repr()` of a parsed JSON value. -/
def pyRepr : JValue → String
  | .null => "None"
  | .bool true => "True"
  | .bool false => "False"
  | .nan => "nan"
  | .inf true => "-inf"
  | .inf false => "inf"
  | .num q => numRepr q
  | .str s => pyReprStr s
  | .arr l => "[" ++ String.intercalate ", " (pyReprList l) ++ "]"
  | .obj l => "\x7b" ++ String.intercalate ", " (pyReprFields l) ++ "\x7d"

def pyReprList : List JValue → List String
  | [] => []
  | v :: vs => pyRepr v :: pyReprList vs

def pyReprFields : List (String × JValue) → List String
  | [] => []
  | p :: ps => (pyReprStr p.1 ++ ": " ++ pyRepr p.2) :: pyReprFields ps

end

/-- Models Python `str()` of a parsed JSON value. -/
def pyStr (v : JValue) : String :=
  match v with
  | .str s => s
  | v => pyRepr v

/-! ## analyze_frame reply parsing (src/app.py:121-147) -/

/-- Python whitespace recognised by `str.strip()` and regex `\s` (ASCII part). -/
def pyIsSpace (c : Char) : Bool :=
  c = ' ' || c = '\t' || c = '\n' || c = '\r' || c = '\x0b' || c = '\x0c'

def dropLeadWs (s : String) : String := String.mk (s.toList.dropWhile pyIsSpace)

def dropTrailWs (s : String) : String :=
  String.mk ((s.toList.reverse.dropWhile pyIsSpace).reverse)

/-- Models Python `str.strip()` (ASCII whitespace). -/
def pyStrip (s : String) : String := dropLeadWs (dropTrailWs s)

/-- List-level drop of the first `n` characters. -/
def strDrop (s : String) (n : ℕ) : String := String.mk (s.toList.drop n)

/-- List-level drop of the last `n` characters. -/
def strDropRight (s : String) (n : ℕ) : String :=
  String.mk (s.toList.take (s.toList.length - n))

def strEndsWith (s p : String) : Bool := startsWithL s.toList.reverse p.toList.reverse

/-- Models the two code-fence substitutions of `analyze_frame`
(`src/app.py:139-140`): drop a leading fence (with optional `json` tag and
trailing whitespace) and a trailing fence (with leading whitespace). -/
def strip_code_fence (raw : String) : String :=
  let r1 :=
    if startsWithL raw.toList "```json".toList then dropLeadWs (strDrop raw 7)
    else if startsWithL raw.toList "```".toList then dropLeadWs (strDrop raw 3)
    else raw
  if strEndsWith r1 "```" then dropTrailWs (strDropRight r1 3) else r1

def lastIdxOf (c : Char) (cs : List Char) : Option ℕ :=
  match cs.reverse.findIdx? (· == c) with
  | some k => some (cs.length - 1 - k)
  | none => none

/-- Models `m = re.search(r'{.*}', raw, re.DOTALL); raw = m.group(0) if m
else ""` (`src/app.py:141-142`).  The greedy `.*` makes the match run from
the first opening brace (provided some closing brace follows it) to the
last closing brace of the whole string. -/
def greedy_json_span (s : String) : String :=
  let cs := s.toList
  match cs.findIdx? (· == '\x7b'), lastIdxOf '\x7d' cs with
  | some i, some j => if i < j then String.mk ((cs.drop i).take (j - i + 1)) else ""
  | _, _ => ""

/-- The defensive fallback `{"text": None, "errors": []}` of `analyze_frame`. -/
def fallback_result : JValue := .obj [("text", .null), ("errors", .arr [])]

/-- Models the reply-parsing block of `analyze_frame` (`src/app.py:121-147`).
The request `try`/`except` collapses to an optional raw content string:
`none` covers network errors, timeouts and non-2xx responses (via
`raise_for_status`), in which case `raw = ""`.  A reply is stripped,
un-fenced, reduced to the greedy brace span and passed to `json.loads`,
falling back to `fallback_result` when parsing fails. -/
def analyze_frame_parse (reply : Option String) : JValue :=
  let raw :=
    match reply with
    | some s => pyStrip s
    | none => ""
  let raw := strip_code_fence raw
  let raw := greedy_json_span raw
  (json_loads raw).getD fallback_result

/-- Balanced-brace scan used by `first_balanced_span`; `depth` counts open
braces seen so far. -/
def balancedFrom : ℕ → List Char → List Char → Option (List Char)
  | _, _, [] => none
  | depth, acc, c :: cs =>
    if c = '\x7b' then balancedFrom (depth + 1) (c :: acc) cs
    else if c = '\x7d' then
      if depth ≤ 1 then some (c :: acc).reverse else balancedFrom (depth - 1) (c :: acc) cs
    else balancedFrom depth (c :: acc) cs

/-- Stated from the claim's own words, for comparison with
`greedy_json_span`: the first top-level brace-balanced span of the text,
located by brace matching from the first opening brace. -/
def first_balanced_span (s : String) : String :=
  let cs := s.toList
  match cs.findIdx? (· == '\x7b') with
  | none => ""
  | some i =>
    match balancedFrom 0 [] (cs.drop i) with
    | some span => String.mk span
    | none => ""

/-! ## Echo detection (src/app.py:56-67, 149-150) -/

/-- The fixed `_ECHO_MARKERS` list (`src/app.py:56-61`). -/
def ECHO_MARKERS : List String :=
  ["spell-checker", "spell checker", "video frame", "json object",
   "no explanation", "no markdown", "reply with", "reply in json",
   "look at this", "lower thirds", "graphics, etc", "you are a",
   "on-screen text", "misspelled", "surrounding words"]

/-- Number of marker phrases occurring in `t`:
`sum(1 for m in _ECHO_MARKERS if m in t)`. -/
def countMarkers (t : String) : ℕ := (ECHO_MARKERS.filter (fun m => pyIn m t)).length

/-- Models `_is_echo` (`src/app.py:63-67`). -/
def is_echo (text : String) : Bool :=
  if text = "" then false
  else decide (2 ≤ countMarkers (pyLower text))

/-- The string the echo test receives: `str(result.get("text") or "")`. -/
def echoCheckText (result : JValue) : String :=
  let t := (jGet result "text").getD JValue.null
  if pyTruthy t then pyStr t else ""

/-- Models the echo-filter statement of `analyze_frame`
(`src/app.py:149-150`). -/
def echoStep (result : JValue) : JValue :=
  if is_echo (echoCheckText result) then fallback_result else result

/-! ## Dictionary cross-validation (src/app.py:70-81, 152-156) -/

structure SpellingError where
  word : String
  suggestion : String
  context : Option String
deriving Repr, DecidableEq

/-- The candidate-word normalisation of `_validate_errors`:
`re.sub(r"[^a-z]", "", err.get("word", "").lower())`. -/
def stripWord (w : String) : String :=
  String.mk ((pyLower w).toList.filter (fun c => decide ('a' ≤ c ∧ c ≤ 'z')))

/-- Models `_validate_errors` (`src/app.py:70-81`).  The pyspellchecker
dictionary is an external collaborator, abstracted as the predicate
`unknownF` (`unknownF w = true` when `_spell.unknown([w])` is non-empty,
i.e. the dictionary does not recognise `w`). -/
def validate_errors (unknownF : String → Bool) : List SpellingError → List SpellingError
  | [] => []
  | e :: rest =>
    let word := stripWord e.word
    if word = "" then validate_errors unknownF rest
    else if unknownF word then e :: validate_errors unknownF rest
    else validate_errors unknownF rest

/-- Models the language dispatch around `_validate_errors` in
`analyze_frame` (`src/app.py:152-156`): English replies are
cross-validated, any other language keeps the raw error list. -/
def validateStep (unknownF : String → Bool) (language : String)
    (errors : List SpellingError) : List SpellingError :=
  if language = "english" then validate_errors unknownF errors else errors

/-! ## Job orchestration (src/app.py:265-367, 379-403)

`process_video` drives the pipeline for one job.  Its external effects —
the Ollama liveness probe, ffmpeg audio extraction, Whisper transcription,
ffmpeg frame extraction and the per-frame vision call — are supplied by an
`Env` whose `Except` values record whether each call raises and with what
message (`str(exc)`).  The `finally` block only removes temporary files
and never touches the job record, so it has no footprint in this model. -/

/-- The dictionary `analyze_frame` returns for one frame: `text`,
`errors` (already echo-filtered and validated), `timestamp_sec`
(`round(frame_index / fps)`, an integer) and `frame_index`. -/
structure FrameResult where
  text : Option String
  errors : List SpellingError
  timestamp_sec : ℤ
  frame_index : ℕ
deriving Repr, DecidableEq

/-- An entry of the aggregated `all_errors` list (src/app.py:325-331). -/
structure AggregatedError where
  word : String
  suggestion : String
  context : Option String
  timestamp_sec : ℤ
  timestamp : String
deriving Repr, DecidableEq

structure TranscriptEntry where
  timestamp : String
  timestamp_sec : ℤ
  text : Option String
deriving Repr, DecidableEq

structure Progress where
  step : String
  pct : ℤ
  phase : Option String
  frames_done : Option ℕ
  total_frames : Option ℕ
deriving Repr, DecidableEq

structure ResultsObj where
  language : String
  total_frames : ℕ
  frames_with_text : ℕ
  errors : List AggregatedError
  transcript : List TranscriptEntry
  audio_transcript : List SpokenSegment
  caption_accuracy : List Row
deriving Repr, DecidableEq

structure Job where
  status : String
  progress : Progress
  results : Option ResultsObj
  error : Option String
deriving Repr, DecidableEq

/-- The job record created by `upload` (src/app.py:393-398). -/
def init_job : Job :=
  { status := "queued"
    progress := { step := "Queued…", pct := 0, phase := none, frames_done := none,
                  total_frames := none }
    results := none
    error := none }

/-- The aggregate entry built at src/app.py:325-331; `context` defaults to
the frame's own text when the model gave no context. -/
def mkAggregated (f : FrameResult) (e : SpellingError) : AggregatedError :=
  { word := e.word
    suggestion := e.suggestion
    context := e.context.orElse (fun _ => f.text)
    timestamp_sec := f.timestamp_sec
    timestamp := format_timestamp f.timestamp_sec }

/-- The inner aggregation loop over one frame's errors
(src/app.py:320-331): `key = err.get("word", "").lower()`, and an entry is
appended only for a non-empty key not yet in `seen_words`. -/
def aggErrorsFrame (f : FrameResult) :
    List SpellingError → List String → List AggregatedError →
    (List String × List AggregatedError)
  | [], seen, acc => (seen, acc)
  | e :: es, seen, acc =>
    let key := pyLower e.word
    if key ≠ "" ∧ key ∉ seen then
      aggErrorsFrame f es (key :: seen) (acc ++ [mkAggregated f e])
    else
      aggErrorsFrame f es seen acc

def aggErrorsLoop : List FrameResult → List String → List AggregatedError →
    (List String × List AggregatedError)
  | [], seen, acc => (seen, acc)
  | f :: fs, seen, acc =>
    let p := aggErrorsFrame f f.errors seen acc
    aggErrorsLoop fs p.1 p.2

/-- The per-job error aggregation of `process_video` (src/app.py:303-331)
applied to the completed frame results. -/
def aggregate_errors (frames : List FrameResult) : List AggregatedError :=
  (aggErrorsLoop frames [] []).2

/-- First-seen-wins deduplication by lowercased word (claim-side shape for
the aggregation): walk the occurrence list once, keeping an occurrence
exactly when its lowercased word is non-empty and not seen before. -/
def dedupFold : List AggregatedError → List String → List AggregatedError →
    (List String × List AggregatedError)
  | [], seen, acc => (seen, acc)
  | a :: rest, seen, acc =>
    if pyLower a.word ≠ "" ∧ pyLower a.word ∉ seen then
      dedupFold rest (pyLower a.word :: seen) (acc ++ [a])
    else dedupFold rest seen acc

/-- Stated from the claim's words, for comparison with `aggregate_errors`:
flatten the flagged errors in increasing frame order (each carrying its own
frame's timestamp) and keep, for every distinct non-empty lowercased word,
exactly its first occurrence. -/
def first_occurrence_errors (frames : List FrameResult) : List AggregatedError :=
  (dedupFold (List.flatten (frames.map (fun f => f.errors.map (mkAggregated f)))) [] []).2

/-- The two fields of a frame result that `compare_captions` reads. -/
def frameView (f : FrameResult) : FrameReading :=
  { timestamp_sec := (f.timestamp_sec : ℚ), text := f.text }

/-- External effects of `process_video`, one field per fallible call.
`probe_ok` is whether `requests.get(f"{OLLAMA_BASE_URL}/api/tags")`
completes without raising (its HTTP status is not checked);
`analyze path index language` is the outcome of
`analyze_frame(str(frame_path), i + 1, language=language)`. -/
structure Env where
  base_url : String
  probe_ok : Bool
  extract_audio : Except String Unit
  transcribe : Except String (List SpokenSegment)
  extract_frames : Except String (List String)
  analyze : String → ℕ → String → Except String FrameResult

/-- Progress record with only `step`, `pct` and `phase` keys, as written
by every phase of `process_video` except the per-frame update. -/
def simpleProgress (step : String) (pct : ℤ) (phase : String) : Progress :=
  { step := step, pct := pct, phase := some phase, frames_done := none, total_frames := none }

/-- The fixed message raised when the Ollama probe fails
(src/app.py:277-280). -/
def ollama_unreachable_msg (base_url : String) : String :=
  "Cannot reach Ollama at " ++ base_url ++
    ". Make sure Ollama is running and the model is loaded."

/-- Step 4 of `process_video` (src/app.py:302-331): per-frame progress
update, vision call, frame-result accumulation and error aggregation.
An exception in a vision call carries the job state at the raise.
Python's `int((i / len(frames)) * 72)` is embedded with exact rational
arithmetic. -/
def analyzeLoop (env : Env) (language : String) (total : ℕ) :
    List String → ℕ → Job → List FrameResult → List String → List AggregatedError →
    Except (Job × String) (Job × List FrameResult × List AggregatedError)
  | [], _, job, allFrames, _, allErrors => .ok (job, allFrames, allErrors)
  | p :: ps, i, job, allFrames, seen, allErrors =>
    let pct : ℤ := 15 + Int.floor (((i : ℚ) / (total : ℚ)) * 72)
    let prog : Progress :=
      { step := "Analysing frame " ++ toString (i + 1) ++ " of " ++ toString total ++ "…"
        pct := pct
        phase := some "analyse"
        frames_done := some (i + 1)
        total_frames := some total }
    let job := { job with progress := prog }
    match env.analyze p (i + 1) language with
    | .error e => .error (job, e)
    | .ok r =>
      let pr := aggErrorsFrame r r.errors seen allErrors
      analyzeLoop env language total ps (i + 1) job (allFrames ++ [r]) pr.1 pr.2

/-- The `try` body of `process_video` (src/app.py:270-355), threading the
mutable job record; an `Except.error` carries the job state at the point
the exception was raised together with `str(exc)`. -/
def try_body (env : Env) (language : String) (job : Job) : Except (Job × String) Job :=
  let job := { job with status := "processing" }
  if env.probe_ok = false then .error (job, ollama_unreachable_msg env.base_url)
  else
    let job := { job with progress := simpleProgress "Extracting audio from video…" 3 "audio" }
    match env.extract_audio with
    | .error e => .error (job, e)
    | .ok _ =>
      let job := { job with progress := simpleProgress "Transcribing audio with Whisper…" 7 "audio" }
      match env.transcribe with
      | .error e => .error (job, e)
      | .ok audio_segments =>
        let job := { job with progress := simpleProgress "Extracting video frames…" 12 "frames" }
        match env.extract_frames with
        | .error e => .error (job, e)
        | .ok frames =>
          if frames.isEmpty then
            .error (job, "Could not extract any frames. Is this a valid video file?")
          else
            let job := { job with progress := (simpleProgress
              ("Extracted " ++ toString frames.length ++ " frames — starting AI analysis…")
              15 "frames") }
            match analyzeLoop env language frames.length frames 0 job [] [] [] with
            | .error pe => .error pe
            | .ok (job, all_frames, all_errors) =>
              let job := { job with progress :=
                (simpleProgress "Comparing captions against audio…" 90 "compare") }
              let caption_accuracy :=
                compare_captions (all_frames.map frameView) audio_segments language
              let job := { job with status := "done" }
              let job := { job with progress := simpleProgress "Analysis complete!" 100 "done" }
              .ok { job with results := some {
                language := language
                total_frames := frames.length
                frames_with_text := (all_frames.filter (fun f => !(f.text.getD "").isEmpty)).length
                errors := all_errors
                transcript := (all_frames.filter (fun f => !(f.text.getD "").isEmpty)).map
                  (fun f => { timestamp := format_timestamp f.timestamp_sec,
                              timestamp_sec := f.timestamp_sec, text := f.text })
                audio_transcript := audio_segments
                caption_accuracy := caption_accuracy } }

/-- Models `process_video` (src/app.py:265-367): run the `try` body; on an
exception set status `"error"` and store `str(exc)` verbatim. -/
def process_video (env : Env) (language : String) (job : Job) : Job :=
  match try_body env language job with
  | .ok j => j
  | .error pe => { pe.1 with status := "error", error := some pe.2 }

/-! ## Helper lemmas -/

theorem filterMap_guard {α β : Type} (p : α → Bool) (g : α → Option β) :
    ∀ l : List α,
      l.filterMap (fun x => if p x then g x else none) = (l.filter p).filterMap g := by
  intro l
  induction l with
  | nil => rfl
  | cons x xs ih =>
    by_cases h : p x <;> simp [List.filterMap_cons, List.filter_cons, h, ih]

theorem filterMap_if_skip {α β : Type} (t : α → String) (g : α → β) :
    ∀ l : List α,
      l.filterMap (fun x => if t x = "" then none else some (g x)) =
        (l.filter (fun x => !decide (t x = ""))).map g := by
  intro l
  induction l with
  | nil => rfl
  | cons x xs ih =>
    rw [List.filterMap_cons, List.filter_cons]
    by_cases h : t x = "" <;> simp [h, ih]

theorem compare_captions_eq_english (frames : List FrameReading) (segs : List SpokenSegment) :
    compare_captions frames segs "english" =
      (segs.filter (fun s => !decide (s.text = ""))).map (englishRow frames) := by
  have h1 : compare_captions frames segs "english" =
      segs.filterMap (fun s => if s.text = "" then none else some (englishRow frames s)) := rfl
  rw [h1]
  exact filterMap_if_skip (fun s => s.text) (englishRow frames) segs

theorem compare_captions_eq_review (frames : List FrameReading) (segs : List SpokenSegment)
    (language : String) (hlang : language ≠ "english") :
    compare_captions frames segs language =
      (segs.filter (fun s => !decide (s.text = ""))).map (reviewRow frames) := by
  have h1 : compare_captions frames segs language =
      segs.filterMap (fun s => if s.text = "" then none else some (reviewRow frames s)) := by
    unfold compare_captions
    congr 1
    funext seg
    by_cases h : seg.text = "" <;> simp [h, hlang]
  rw [h1]
  exact filterMap_if_skip (fun s => s.text) (reviewRow frames) segs

theorem validate_errors_eq_filter (unknownF : String → Bool) :
    ∀ errors : List SpellingError,
      validate_errors unknownF errors =
        errors.filter
          (fun e => !decide (stripWord e.word = "") && unknownF (stripWord e.word)) := by
  intro errors
  induction errors with
  | nil => rfl
  | cons e es ih =>
    unfold validate_errors
    rw [List.filter_cons]
    by_cases h1 : stripWord e.word = ""
    · simp [h1, ih]
    · by_cases h2 : unknownF (stripWord e.word)
      · simp [h1, h2, ih]
      · simp [h1, h2, ih]

/-! ## Claims -/

/-- C3 (confirmed): for every parsed frame result, the echo filter replaces
the whole result by `{"text": None, "errors": []}` exactly when the
(lower-cased) text field contains at least two marker phrases from the
fixed `_ECHO_MARKERS` list, and passes the result through unchanged when it
contains at most one. -/
theorem claim_C3 (result : JValue) :
    echoStep result =
      if 2 ≤ countMarkers (pyLower (echoCheckText result)) then fallback_result
      else result := by
  unfold echoStep is_echo
  by_cases h : echoCheckText result = ""
  · have h0 : countMarkers (pyLower "") = 0 := by decide
    rw [h]
    simp [h0]
  · rw [if_neg h]
    by_cases h2 : 2 ≤ countMarkers (pyLower (echoCheckText result)) <;> simp [h2]

/-- A concrete external dictionary for the C4 counterexample: it recognises
exactly the word `"action"`, so every other string — including the empty
string, which the real pyspellchecker also reports unknown — is unknown. -/
def exDict : String → Bool := fun w => !(w == "action")

/-- C4 (counterexample): the claimed "kept if and only if the stripped
lowercase form is unknown" fails for a candidate whose stripped form is
empty: `"123"` strips to `""`, the dictionary reports `""` unknown, yet
`_validate_errors` drops the entry via its `if not word: continue` guard
before any dictionary lookup. -/
theorem claim_C4_counterexample :
    ¬ (({ word := "123", suggestion := "", context := none } : SpellingError)
          ∈ validate_errors exDict [{ word := "123", suggestion := "", context := none }]
        ↔ exDict (stripWord "123") = true) := by decide

/-- C4 (corrected): in English mode a candidate error is kept if and only
if its word, stripped of non-letters and lower-cased, is non-empty and the
dictionary reports it unknown; in any other language the raw error list is
kept unchanged.  (The claim omitted the non-emptiness condition.) -/
theorem claim_C4 (unknownF : String → Bool) (language : String)
    (errors : List SpellingError) :
    validateStep unknownF language errors =
      if language = "english" then
        errors.filter
          (fun e => !decide (stripWord e.word = "") && unknownF (stripWord e.word))
      else errors := by
  unfold validateStep
  by_cases h : language = "english" <;> simp [h, validate_errors_eq_filter]

/-- C5 (confirmed): the on-screen parts of a segment's row are gathered
from exactly the frame readings whose timestamp lies in
`[start - 2, end + 2]` (their kept texts, deduplicated first-seen in
order, joined with `" | "`); in particular, for a segment `[10, 12]` a
frame at `13.5` is inside the window and a frame at `14.5` is not. -/
theorem claim_C5 :
    (∀ (frames : List FrameReading) (start end_ : ℚ),
      onScreenParts frames start end_ = (frames.filter (inWindow start end_)).filterMap keptText)
    ∧ (∀ t : Option String,
        inWindow 10 12 { timestamp_sec := 27/2, text := t } = true
        ∧ inWindow 10 12 { timestamp_sec := 29/2, text := t } = false)
    ∧ (∀ (frames : List FrameReading) (start end_ : ℚ),
        onScreenOf frames start end_ =
          String.intercalate " | "
            (pyDedup ((frames.filter (inWindow start end_)).filterMap keptText))) := by
  refine ⟨?_, ?_, ?_⟩
  · intro frames start end_
    exact filterMap_guard (inWindow start end_) keptText frames
  · intro t
    constructor
    · simp only [inWindow, decide_eq_true_eq]
      norm_num
    · simp only [inWindow, decide_eq_false_iff_not]
      norm_num
  · intro frames start end_
    unfold onScreenOf onScreenParts
    rw [filterMap_guard (inWindow start end_) keptText frames]

/-- C7 (confirmed): in the non-English (unscored) mode, every accuracy row
produced by `compare_captions` has status `"review"` and no score. -/
theorem claim_C7 (language : String) (frames : List FrameReading)
    (segs : List SpokenSegment) (row : Row) (hlang : language ≠ "english")
    (hrow : row ∈ compare_captions frames segs language) :
    row.status = "review" ∧ row.score = none := by
  rw [compare_captions_eq_review frames segs language hlang] at hrow
  obtain ⟨seg, -, rfl⟩ := List.mem_map.mp hrow
  exact ⟨rfl, rfl⟩

def seg_hi : SpokenSegment := { start := 0, end_ := 1, text := "hi" }

theorem claim_C7_witness :
    (reviewRow [] seg_hi).status = "review" ∧ (reviewRow [] seg_hi).score = none :=
  claim_C7 "hinglish" [] [seg_hi] (reviewRow [] seg_hi) (by decide)
    (by
      show reviewRow [] seg_hi ∈ [reviewRow [] seg_hi]
      exact List.mem_singleton.mpr rfl)

/-- C9 (confirmed): a frame whose text is the literal string `"null"` or
`"none"` (case-insensitively) contributes nothing to any window: replacing
such a frame's text by `None` leaves every segment's gathered on-screen
parts unchanged. -/
theorem claim_C9 (s : String) (hs : pyLower s = "null" ∨ pyLower s = "none")
    (ts : ℚ) (pre post : List FrameReading) (start end_ : ℚ) :
    onScreenParts (pre ++ { timestamp_sec := ts, text := some s } :: post) start end_ =
      onScreenParts (pre ++ { timestamp_sec := ts, text := none } :: post) start end_ := by
  have hk : keptText { timestamp_sec := ts, text := some s } = none := by
    unfold keptText
    rcases hs with h | h <;> simp [h]
  have hk2 : keptText { timestamp_sec := ts, text := none } = none := by
    unfold keptText
    simp
  unfold onScreenParts
  rw [List.filterMap_append, List.filterMap_append, List.filterMap_cons, List.filterMap_cons]
  by_cases hw : inWindow start end_ { timestamp_sec := ts, text := some s } <;>
    by_cases hw2 : inWindow start end_ { timestamp_sec := ts, text := none } <;>
      simp [hw, hw2, hk, hk2]

theorem claim_C9_witness :
    pyLower "NULL" = "null"
    ∧ onScreenParts [{ timestamp_sec := 11, text := some "NULL" },
        { timestamp_sec := 11, text := some "ok" }] 10 12 =
      onScreenParts [{ timestamp_sec := 11, text := none },
        { timestamp_sec := 11, text := some "ok" }] 10 12 :=
  ⟨rfl,
    claim_C9 "NULL" (Or.inl rfl) 11 []
      [{ timestamp_sec := 11, text := some "ok" }] 10 12⟩

/-- The concrete model reply used by the C1 counterexample: a well-formed
JSON object followed by trailing text that contains one more closing
brace. -/
def c1_reply : String := "\x7b\"text\": \"hi\", \"errors\": []\x7d x\x7d"

/-- C1 (counterexample): `analyze_frame` does not extract the first
top-level brace-balanced JSON object.  On `c1_reply` the first balanced
object parses to `{"text": "hi", "errors": []}`, but the code's greedy
`re.search(r'{.*}', ..., re.DOTALL)` spans to the last closing brace,
yielding unparseable text, so the code returns the fallback instead. -/
theorem claim_C1_counterexample :
    analyze_frame_parse (some c1_reply) = fallback_result
    ∧ json_loads (first_balanced_span (strip_code_fence (pyStrip c1_reply)))
        = some (JValue.obj [("text", JValue.str "hi"), ("errors", JValue.arr [])])
    ∧ greedy_json_span (strip_code_fence (pyStrip c1_reply))
        ≠ first_balanced_span (strip_code_fence (pyStrip c1_reply)) := by
  refine ⟨rfl, rfl, ?_⟩
  decide

/-- C1 (corrected): `analyze_frame` strips optional code-fence wrapping and
then extracts the span from the first opening brace to the last closing
brace of the remaining text (the greedy regex match), not the first
balanced object; it parses that span, and on any failure — network error,
non-2xx response (both collapse to an absent reply) or malformed JSON — it
returns the fallback `{"text": None, "errors": []}` instead of raising. -/
theorem claim_C1 :
    analyze_frame_parse none = fallback_result
    ∧ (∀ raw, json_loads (greedy_json_span (strip_code_fence (pyStrip raw))) = none →
        analyze_frame_parse (some raw) = fallback_result)
    ∧ (∀ raw v, json_loads (greedy_json_span (strip_code_fence (pyStrip raw))) = some v →
        analyze_frame_parse (some raw) = v) := by
  refine ⟨rfl, ?_, ?_⟩
  · intro raw h
    show (json_loads (greedy_json_span (strip_code_fence (pyStrip raw)))).getD fallback_result
        = fallback_result
    rw [h]
    rfl
  · intro raw v h
    show (json_loads (greedy_json_span (strip_code_fence (pyStrip raw)))).getD fallback_result
        = v
    rw [h]
    rfl

theorem claim_C1_witness :
    json_loads (greedy_json_span (strip_code_fence (pyStrip "no json here"))) = none
    ∧ analyze_frame_parse (some "no json here") = fallback_result :=
  ⟨rfl, claim_C1.2.1 "no json here" rfl⟩

/-- C2 (confirmed): every English-mode row comes from `englishRow`; when
the concatenated on-screen text is non-empty, the status is determined
solely by the case-insensitive similarity ratio — `match` at `>= 0.55`,
`partial` at `>= 0.25`, `mismatch` below — and the score is
`round(ratio * 100)`; when there is no on-screen text the status is
`no_caption` regardless. -/
theorem claim_C2 :
    (∀ (frames : List FrameReading) (segs : List SpokenSegment),
      compare_captions frames segs "english" =
        (segs.filter (fun s => !decide (s.text = ""))).map (englishRow frames))
    ∧ (∀ (frames : List FrameReading) (seg : SpokenSegment),
        (onScreenOf frames seg.start seg.end_ ≠ "" →
          (englishRow frames seg).status =
            (if (11 : ℚ)/20 ≤ SeqMatch.ratioQ (pyLower seg.text)
                (pyLower (onScreenOf frames seg.start seg.end_)) then "match"
             else if (1 : ℚ)/4 ≤ SeqMatch.ratioQ (pyLower seg.text)
                (pyLower (onScreenOf frames seg.start seg.end_)) then "partial"
             else "mismatch")
          ∧ (englishRow frames seg).score =
              some (pyRound (SeqMatch.ratioQ (pyLower seg.text)
                (pyLower (onScreenOf frames seg.start seg.end_)) * 100)))
        ∧ (onScreenOf frames seg.start seg.end_ = "" →
            (englishRow frames seg).status = "no_caption")) := by
  refine ⟨compare_captions_eq_english, ?_⟩
  intro frames seg
  constructor
  · intro h
    constructor
    · simp only [englishRow]
      rw [if_pos h, if_pos h]
    · simp only [englishRow]
      rw [if_pos h]
  · intro h
    simp only [englishRow]
    rw [if_neg (not_not_intro h)]

def c2_frames : List FrameReading := [{ timestamp_sec := 11, text := some "a" }]

def c2_seg : SpokenSegment := { start := 10, end_ := 12, text := "A" }

theorem claim_C2_witness :
    onScreenOf c2_frames c2_seg.start c2_seg.end_ ≠ ""
    ∧ (englishRow c2_frames c2_seg).status = "match"
    ∧ (englishRow c2_frames c2_seg).score = some 100 := by
  have hwin : inWindow 10 12 { timestamp_sec := 11, text := some "a" } = true := by
    simp only [inWindow, decide_eq_true_eq]
    norm_num
  have hos : onScreenOf c2_frames c2_seg.start c2_seg.end_ = "a" := by
    show onScreenOf c2_frames 10 12 = "a"
    unfold onScreenOf onScreenParts c2_frames
    rw [List.filterMap_cons, hwin]
    rfl
  have hne : onScreenOf c2_frames c2_seg.start c2_seg.end_ ≠ "" := by
    rw [hos]
    decide
  have hm : SeqMatch.matchSum "a".toList "a".toList (SeqMatch.b2j "a".toList)
      ("a".toList.length + 1) 0 "a".toList.length 0 "a".toList.length = 1 := rfl
  have hr : SeqMatch.ratioQ (pyLower c2_seg.text)
      (pyLower (onScreenOf c2_frames c2_seg.start c2_seg.end_)) = 1 := by
    rw [hos]
    show SeqMatch.ratioQ "a" "a" = 1
    simp only [SeqMatch.ratioQ]
    rw [hm]
    norm_num
  have h := (claim_C2.2 c2_frames c2_seg).1 hne
  refine ⟨hne, ?_, ?_⟩
  · rw [h.1, hr]
    norm_num
  · rw [h.2, hr]
    have : pyRound ((1 : ℚ) * 100) = 100 := by
      simp only [pyRound]
      norm_num
    rw [this]

/-- C10 (confirmed): every English-mode row carries a score (an integer
under `some`), and a row whose correlation window yields no on-screen text
gets status `no_caption` with score `0` (the ratio is replaced by the
constant `0` rather than computed). -/
theorem claim_C10 :
    (∀ (frames : List FrameReading) (segs : List SpokenSegment) (row : Row),
      row ∈ compare_captions frames segs "english" → ∃ n : ℤ, row.score = some n)
    ∧ (∀ (frames : List FrameReading) (seg : SpokenSegment),
        onScreenOf frames seg.start seg.end_ = "" →
          (englishRow frames seg).status = "no_caption"
          ∧ (englishRow frames seg).score = some 0) := by
  constructor
  · intro frames segs row hrow
    rw [compare_captions_eq_english] at hrow
    obtain ⟨seg, -, rfl⟩ := List.mem_map.mp hrow
    exact ⟨_, rfl⟩
  · intro frames seg h
    have hne : ¬ (onScreenOf frames seg.start seg.end_ ≠ "") := not_not_intro h
    constructor
    · simp only [englishRow]
      rw [if_neg hne]
    · simp only [englishRow]
      rw [if_neg hne]
      have : pyRound ((0 : ℚ) * 100) = 0 := by
        simp only [pyRound]
        norm_num
      rw [this]

def c10_seg : SpokenSegment := { start := 0, end_ := 1, text := "hi" }

theorem claim_C10_witness :
    (∃ n : ℤ, (englishRow [] c10_seg).score = some n)
    ∧ (englishRow [] c10_seg).status = "no_caption"
    ∧ (englishRow [] c10_seg).score = some 0 := by
  have hos : onScreenOf [] c10_seg.start c10_seg.end_ = "" := rfl
  have h2 := claim_C10.2 [] c10_seg hos
  refine ⟨?_, h2.1, h2.2⟩
  exact claim_C10.1 [] [c10_seg] (englishRow [] c10_seg)
    (by
      show englishRow [] c10_seg ∈ [englishRow [] c10_seg]
      exact List.mem_singleton.mpr rfl)

/-! C6 lemmas: the nested aggregation loop of `process_video` equals a
single first-seen-wins fold over the flattened occurrence list. -/

theorem dedupFold_cons (x : AggregatedError) (rest : List AggregatedError)
    (seen : List String) (acc : List AggregatedError) :
    dedupFold (x :: rest) seen acc =
      if pyLower x.word ≠ "" ∧ pyLower x.word ∉ seen then
        dedupFold rest (pyLower x.word :: seen) (acc ++ [x])
      else dedupFold rest seen acc := rfl

theorem aggErrorsFrame_cons (f : FrameResult) (e : SpellingError)
    (es : List SpellingError) (seen : List String) (acc : List AggregatedError) :
    aggErrorsFrame f (e :: es) seen acc =
      if pyLower e.word ≠ "" ∧ pyLower e.word ∉ seen then
        aggErrorsFrame f es (pyLower e.word :: seen) (acc ++ [mkAggregated f e])
      else aggErrorsFrame f es seen acc := rfl

theorem dedupFold_append (xs ys : List AggregatedError) :
    ∀ (seen : List String) (acc : List AggregatedError),
      dedupFold (xs ++ ys) seen acc =
        dedupFold ys (dedupFold xs seen acc).1 (dedupFold xs seen acc).2 := by
  induction xs with
  | nil => intro seen acc; rfl
  | cons x xs ih =>
    intro seen acc
    rw [List.cons_append, dedupFold_cons, dedupFold_cons]
    by_cases h : pyLower x.word ≠ "" ∧ pyLower x.word ∉ seen
    · rw [if_pos h, if_pos h, ih]
    · rw [if_neg h, if_neg h, ih]

theorem aggErrorsFrame_eq_dedupFold (f : FrameResult) :
    ∀ (es : List SpellingError) (seen : List String) (acc : List AggregatedError),
      aggErrorsFrame f es seen acc = dedupFold (es.map (mkAggregated f)) seen acc := by
  intro es
  induction es with
  | nil => intro seen acc; rfl
  | cons e rest ih =>
    intro seen acc
    rw [List.map_cons, aggErrorsFrame_cons, dedupFold_cons]
    have hw : (mkAggregated f e).word = e.word := rfl
    rw [hw]
    by_cases h : pyLower e.word ≠ "" ∧ pyLower e.word ∉ seen
    · rw [if_pos h, if_pos h, ih]
    · rw [if_neg h, if_neg h, ih]

theorem aggErrorsLoop_eq_dedupFold :
    ∀ (frames : List FrameResult) (seen : List String) (acc : List AggregatedError),
      aggErrorsLoop frames seen acc =
        dedupFold (List.flatten (frames.map (fun f => f.errors.map (mkAggregated f))))
          seen acc := by
  intro frames
  induction frames with
  | nil => intro seen acc; rfl
  | cons f fs ih =>
    intro seen acc
    show aggErrorsLoop fs (aggErrorsFrame f f.errors seen acc).1
        (aggErrorsFrame f f.errors seen acc).2 = _
    rw [List.map_cons, List.flatten_cons, dedupFold_append,
      aggErrorsFrame_eq_dedupFold, ih]

def c6_frames : List FrameResult :=
  [{ text := some "ctx"
     errors := [{ word := "", suggestion := "sugg", context := none }]
     timestamp_sec := 4
     frame_index := 1 }]

/-- C6 (counterexample): `c6_frames` flags exactly one misspelled word (the
empty word, reachable in the non-validated language mode), yet the
aggregated error list has no entry at all for it — the `if key` guard of
`process_video` skips empty lowercased words, so the first occurrence of
that word contributes nothing, against the claim's "only the first frame
occurrence of that word lower-cased contributes an entry". -/
theorem claim_C6_counterexample :
    (c6_frames.map (fun f => f.errors)).flatten =
        [{ word := "", suggestion := "sugg", context := none }]
    ∧ aggregate_errors c6_frames = [] :=
  ⟨rfl, rfl⟩

/-- C6 (corrected): the aggregated per-job error list equals the
first-seen-wins deduplication, by lowercased word, of the flagged errors
taken in increasing frame order — each retained entry being the first
occurrence of its word (in any letter case) and carrying that frame's
timestamp — restricted to words whose lowercased form is non-empty.  (The
claim held for every word; the code skips empty words entirely.) -/
theorem claim_C6 (frames : List FrameResult) :
    aggregate_errors frames = first_occurrence_errors frames := by
  unfold aggregate_errors first_occurrence_errors
  rw [aggErrorsLoop_eq_dedupFold]

/-! C8 lemmas: an exception leaves `results` untouched. -/

theorem analyzeLoop_error_results (env : Env) (language : String) (total : ℕ) :
    ∀ (ps : List String) (i : ℕ) (job : Job) (fr : List FrameResult)
      (seen : List String) (errs : List AggregatedError) (j : Job) (e : String),
      analyzeLoop env language total ps i job fr seen errs = .error (j, e) →
        j.results = job.results := by
  intro ps
  induction ps with
  | nil =>
    intro i job fr seen errs j e h
    exact absurd h (by simp [analyzeLoop])
  | cons p rest ih =>
    intro i job fr seen errs j e h
    simp only [analyzeLoop] at h
    cases ha : env.analyze p (i + 1) language with
    | error msg =>
      simp only [ha, Except.error.injEq, Prod.mk.injEq] at h
      rw [← h.1]
    | ok r =>
      simp only [ha] at h
      exact (ih _ _ _ _ _ _ _ h).trans rfl

theorem try_body_error_results (env : Env) (language : String) (job jerr : Job)
    (msg : String) (h : try_body env language job = .error (jerr, msg)) :
    jerr.results = job.results := by
  simp only [try_body] at h
  by_cases hp : env.probe_ok = false
  · rw [if_pos hp] at h
    simp only [Except.error.injEq, Prod.mk.injEq] at h
    rw [← h.1]
  · rw [if_neg hp] at h
    cases h1 : env.extract_audio with
    | error e1 =>
      simp only [h1, Except.error.injEq, Prod.mk.injEq] at h
      rw [← h.1]
    | ok u =>
      simp only [h1] at h
      cases h2 : env.transcribe with
      | error e2 =>
        simp only [h2, Except.error.injEq, Prod.mk.injEq] at h
        rw [← h.1]
      | ok segs =>
        simp only [h2] at h
        cases h3 : env.extract_frames with
        | error e3 =>
          simp only [h3, Except.error.injEq, Prod.mk.injEq] at h
          rw [← h.1]
        | ok frames =>
          simp only [h3] at h
          by_cases h4 : frames.isEmpty
          · rw [if_pos h4] at h
            simp only [Except.error.injEq, Prod.mk.injEq] at h
            rw [← h.1]
          · rw [if_neg h4] at h
            cases h5 : analyzeLoop env language frames.length frames 0
                { job with
                  status := "processing"
                  progress := (simpleProgress
                    ("Extracted " ++ toString frames.length ++
                      " frames — starting AI analysis…") 15 "frames") } [] [] [] with
            | error pe =>
              simp only [h5, Except.error.injEq] at h
              have hres := analyzeLoop_error_results env language frames.length
                frames 0 _ [] [] [] pe.1 pe.2 (by rw [h5])
              rw [h] at hres
              exact hres
            | ok triple =>
              simp only [h5] at h
              exact Except.noConfusion h

/-- C8 (confirmed): if any phase of `process_video` raises, the job ends
with status `"error"`, the exception's message stored verbatim in the
error field, and the results field exactly as it was on entry — `None` for
a freshly created job, so partial results are never published. -/
theorem claim_C8 (env : Env) (language : String) (job0 jerr : Job) (msg : String)
    (h : try_body env language job0 = .error (jerr, msg)) :
    (process_video env language job0).status = "error"
    ∧ (process_video env language job0).error = some msg
    ∧ (process_video env language job0).results = job0.results := by
  unfold process_video
  rw [h]
  exact ⟨rfl, rfl, try_body_error_results env language job0 jerr msg h⟩

def c8_env : Env :=
  { base_url := "http://localhost:11434"
    probe_ok := false
    extract_audio := .ok ()
    transcribe := .ok []
    extract_frames := .ok []
    analyze := fun _ _ _ => .error "x" }

theorem claim_C8_witness :
    (process_video c8_env "english" init_job).status = "error"
    ∧ (process_video c8_env "english" init_job).error =
        some (ollama_unreachable_msg "http://localhost:11434")
    ∧ (process_video c8_env "english" init_job).results = none :=
  have h := claim_C8 c8_env "english" init_job { init_job with status := "processing" }
    (ollama_unreachable_msg "http://localhost:11434") rfl
  ⟨h.1, h.2.1, h.2.2⟩

end VSC
